import Mathlib

/-!
# OpenBrowserMCP — verification of the accessibility-snapshot / selector / RPC core

A shallow embedding, in Lean 4, of the core of the OpenBrowserMCP repository:

* `extension/lib/aria-snapshot.ts` — reference table (`getOrCreateRef`,
  `findElementByRef`), snapshot generation (`generateAriaSnapshot`), role
  computation (`getAriaRole`, `getInputRole`), whitespace normalization
  (`normalizeWhitespace`);
* `extension/lib/interactions.ts` — selector resolution (`findElement`,
  `findByRole`, `getElementRole`, `getAccessibleName`) and the interaction
  executors (`click`, `type`, `hover`, `select`, `press`);
* the content script's `handleInteract` dispatcher;
* `mcp/src/context.ts` — the RPC session (`sendRpcRequest`, response and
  timeout handling, `close`) and the connection-swap handler in
  `mcp/src/index.ts`.

DOM elements are modelled as records of the attributes and DOM properties the
embedded functions actually read; element identity (as used by the `WeakMap`
keyed on DOM nodes) is modelled by structural equality of those records, with
an `eid` field standing for object identity.  JavaScript strings are Lean
`String`s, JS `number` timeouts are `Nat` milliseconds, and thrown JS errors
are the `.error` case of `Except`.
-/

/-! ## JavaScript string primitives

`normalizeWhitespace` in `aria-snapshot.ts` is
`text.replace(/\s+/g, " ").trim()`; `interactions.ts` uses `String.trim`
directly.  `jsIsSpace` is the character class `\s` of JavaScript regular
expressions (which coincides with the WhiteSpace ∪ LineTerminator set used by
`String.prototype.trim`). -/

/-- The JavaScript `\s` character class: ASCII whitespace, NBSP, the Unicode
space separators, line/paragraph separators and the BOM. -/
def jsIsSpace (c : Char) : Bool :=
  c == ' ' || c == '\t' || c == '\n' || c == '\r' || c == '\x0b' || c == '\x0c' ||
  c.toNat == 0xA0 || c.toNat == 0x1680 || (0x2000 ≤ c.toNat && c.toNat ≤ 0x200A) ||
  c.toNat == 0x2028 || c.toNat == 0x2029 || c.toNat == 0x202F || c.toNat == 0x205F ||
  c.toNat == 0x3000 || c.toNat == 0xFEFF

/-- Helper for `collapseWS`: the flag records whether the scan is inside a
whitespace run whose replacement space has already been emitted. -/
def collapseWSAux : Bool → List Char → List Char
  | _, [] => []
  | inRun, c :: cs =>
    if jsIsSpace c then
      if inRun then collapseWSAux true cs
      else ' ' :: collapseWSAux true cs
    else c :: collapseWSAux false cs

/-- Model of `text.replace(/\s+/g, " ")` on the character list: each maximal run of
whitespace characters is replaced by a single ASCII space. -/
def collapseWS (l : List Char) : List Char :=
  collapseWSAux false l

/-- Model of `String.prototype.trim` on the character list: drop whitespace from both
ends. -/
def jsTrim (l : List Char) : List Char :=
  ((l.dropWhile jsIsSpace).reverse.dropWhile jsIsSpace).reverse

/-- Model of `String.prototype.trim` on strings (used by `interactions.ts`). -/
def jsTrimStr (s : String) : String :=
  String.mk (jsTrim s.data)

/-- Function `normalizeWhitespace` from `aria-snapshot.ts`:
`text.replace(/\s+/g, " ").trim()`. -/
def normalizeWhitespace (s : String) : String :=
  String.mk (jsTrim (collapseWS s.data))

/-- Evaluation of `s.split(/\s+/)[0]` as used by `getAriaRole` on the explicit `role`
attribute: the empty string when `s` is empty or starts with whitespace,
otherwise the maximal whitespace-free prefix. -/
def splitFirstWS (s : String) : String :=
  match s.data with
  | [] => ""
  | c :: _ =>
    if jsIsSpace c then ""
    else String.mk (s.data.takeWhile (fun d => !jsIsSpace d))

/-- JavaScript truthiness of a nullable string (`if (x) ...` on the result of
`getAttribute`): `null` and `""` are falsy. -/
def truthyString : Option String → Option String
  | none => none
  | some s => if s = "" then none else some s

/-- First-match association-list lookup (`Map.get` / `WeakMap.get`). -/
def lookupKey {α β : Type} [DecidableEq α] : List (α × β) → α → Option β
  | [], _ => none
  | (k, v) :: rest, a => if k = a then some v else lookupKey rest a

/-- Removal of the entry of a key (`Map.delete`). -/
def eraseKey {α β : Type} [DecidableEq α] : List (α × β) → α → List (α × β)
  | [], _ => []
  | (k, v) :: rest, a => if k = a then rest else (k, v) :: eraseKey rest a

/-! ## Decimal rendering

`getOrCreateRef` mints tokens with the template literal `` `e${counter}` ``;
a JS number is rendered in decimal, i.e. `Nat.repr`.  The definitions below
decode such a rendering and are used to prove the rendering injective, which
is what makes freshly minted tokens distinct. -/

/-- The reference token `` `e${n}` ``. -/
def refString (n : Nat) : String :=
  "e" ++ Nat.repr n

/-- Numeric value of a decimal digit character. -/
def decDigitVal (c : Char) : Nat :=
  c.toNat - 48

/-- Value of a list of decimal digit characters (most significant first). -/
def decValue (l : List Char) : Nat :=
  l.foldl (fun a c => 10 * a + decDigitVal c) 0

/-! ## Proof-side predicates for whitespace normalization -/

/-- Every whitespace character of `l` is the ASCII space. -/
def SpacesSingle (l : List Char) : Prop :=
  ∀ c ∈ l, jsIsSpace c = true → c = ' '

/-- No two adjacent characters of `l` are both whitespace. -/
def NoAdjSpaces (l : List Char) : Prop :=
  l.Chain' (fun a b => ¬(jsIsSpace a = true ∧ jsIsSpace b = true))

/-- The shape `collapseWS` produces. -/
def WSCollapsed (l : List Char) : Prop :=
  SpacesSingle l ∧ NoAdjSpaces l

/-- Neither end of `l` is a whitespace character. -/
def NoEdgeSpace (l : List Char) : Prop :=
  (∀ c ∈ l.head?, jsIsSpace c = false) ∧ (∀ c ∈ l.getLast?, jsIsSpace c = false)


/-! ## Protocol types (`extension/lib/protocol.ts`) -/

/-- Error codes of the wire protocol.  The extension-side enum carries all
seven; the server-side schema admits the first five. -/
inductive ErrorCode
  | ELEMENT_NOT_FOUND
  | ELEMENT_AMBIGUOUS
  | TIMEOUT
  | NO_TAB
  | NAVIGATION_FAILED
  | INVALID_REQUEST
  | INTERNAL_ERROR
deriving DecidableEq, Repr

/-- A thrown JavaScript error: `coded` is an `Error` whose message is the
JSON of a typed `(code, message)` pair (the convention of `interactions.ts`),
`typeError` is a runtime `TypeError`, and `plain` an ordinary `Error`. -/
inductive JsError
  | coded (code : ErrorCode) (message : String)
  | typeError (message : String)
  | plain (message : String)
deriving DecidableEq, Repr

/-- The discriminated union `ElementSelector`: by snapshot reference, by CSS
selector, or by ARIA role with optional accessible name. -/
inductive ElementSelector
  | byRef (ref : String)
  | byCss (css : String)
  | byRole (role : String) (name : Option String)
deriving DecidableEq, Repr

/-! ## The element model

An element record carries exactly the attributes and DOM properties read by
the embedded functions.  `eid` stands for object identity (the `WeakMap` key);
distinct page nodes are modelled by records with distinct `eid`s. -/

/-- A DOM element as seen by the embedded functions. -/
structure Elem where
  /-- Object identity of the node. -/
  eid : Nat
  /-- Lowercased tag name (`element.tagName.toLowerCase()`). -/
  tagName : String
  /-- Content attributes, read via `getAttribute` / `hasAttribute`. -/
  attrs : List (String × String)
  /-- The `HTMLInputElement.type` DOM property (already lowercased and
  normalized by the DOM; only meaningful when `tagName = "input"`). -/
  inputType : String
  /-- When the control has associated labels (`element.labels` nonempty),
  the `textContent` of the first one (`""` when that is `null`). -/
  labelsText : Option String
  /-- The `textContent` DOM property (`""` when `null`). -/
  textContent : String
  /-- The `value` DOM property. -/
  value : String
  /-- The `isContentEditable` DOM property. -/
  isContentEditable : Bool
deriving DecidableEq, Repr

/-- Model of `element.getAttribute(k)`. -/
def Elem.getAttribute (e : Elem) (k : String) : Option String :=
  lookupKey e.attrs k

/-- Model of `element.hasAttribute(k)`. -/
def Elem.hasAttribute (e : Elem) (k : String) : Bool :=
  (e.getAttribute k).isSome

/-! ## Reference table and snapshots (`extension/lib/aria-snapshot.ts`) -/

namespace AriaSnapshot

/-- The module-level mutable state of `aria-snapshot.ts`:
`let elementRefCounter = 0` and
`const elementRefMap = new WeakMap<Element, string>()`. -/
structure RefState where
  counter : Nat
  table : List (Elem × String)
deriving Repr

/-- The fresh module state. -/
def initialRefState : RefState :=
  { counter := 0, table := [] }

/-- Function `getOrCreateRef`: return the cached token for `el`, or mint
`` `e${++counter}` `` and cache it. -/
def getOrCreateRef (s : RefState) (el : Elem) : String × RefState :=
  match lookupKey s.table el with
  | some r => (r, s)
  | none =>
    let c := s.counter + 1
    let r := refString c
    (r, { counter := c, table := s.table ++ [(el, r)] })

/-- The reference-table effect of `walkAriaTree`: the walk over the live DOM
is abstracted by the list `exposed` of elements the walk decides to emit (in
emission order, duplicates possible via `aria-owns`); for each one the walk
calls `getOrCreateRef` and records the `(element, ref)` pair of the emitted
`AriaElement` (its role/name/states components play no part in the reference
claims and are not modelled here). -/
def snapshotWalk (s : RefState) : List Elem → List (Elem × String) × RefState
  | [] => ([], s)
  | el :: rest =>
    let p := getOrCreateRef s el
    let q := snapshotWalk p.2 rest
    ((el, p.1) :: q.1, q.2)

/-- Function `generateAriaSnapshot`: reset `elementRefCounter` to `0`
(`elementRefMap` persists), then walk the page. -/
def generateAriaSnapshot (s : RefState) (exposed : List Elem) :
    List (Elem × String) × RefState :=
  snapshotWalk { s with counter := 0 } exposed

/-- Function `findElementByRef` as it executes: the body iterates
`elementRefMap.entries()`, but `elementRefMap` is a `WeakMap`, whose
interface has only `get`/`set`/`has`/`delete` — there is no `entries`
method, so the call throws a `TypeError` before any iteration happens. -/
def findElementByRef (table : List (Elem × String)) (ref : String) :
    Except JsError (Option Elem) :=
  let _ := table
  let _ := ref
  .error (.typeError "elementRefMap.entries is not a function")

/-- The reverse lookup that the (unreachable) loop body of `findElementByRef`
describes: the first cached entry holding the token wins. -/
def refReverseLookup : List (Elem × String) → String → Option Elem
  | [], _ => none
  | (el, r) :: rest, ref => if r = ref then some el else refReverseLookup rest ref

/-- Function `getInputRole` of `aria-snapshot.ts`: role of an `<input>` from
its `type` property (`typeRoles[type] || "textbox"`). -/
def getInputRole (t : String) : String :=
  match t with
  | "button" => "button"
  | "checkbox" => "checkbox"
  | "radio" => "radio"
  | "text" => "textbox"
  | "email" => "textbox"
  | "password" => "textbox"
  | "search" => "searchbox"
  | "tel" => "textbox"
  | "url" => "textbox"
  | "number" => "spinbutton"
  | "range" => "slider"
  | _ => "textbox"

/-- The `implicitRoles` table of `getAriaRole` (`implicitRoles[tagName] ||
null`), including the conditional entries for `a`, `input`, `select` and
`img`. -/
def implicitAriaRole (e : Elem) : Option String :=
  match e.tagName with
  | "a" => if e.hasAttribute "href" then some "link" else none
  | "button" => some "button"
  | "input" => some (getInputRole e.inputType)
  | "textarea" => some "textbox"
  | "select" => some (if e.hasAttribute "multiple" then "listbox" else "combobox")
  | "h1" => some "heading"
  | "h2" => some "heading"
  | "h3" => some "heading"
  | "h4" => some "heading"
  | "h5" => some "heading"
  | "h6" => some "heading"
  | "img" => if e.hasAttribute "alt" then some "img" else none
  | "nav" => some "navigation"
  | "main" => some "main"
  | "header" => some "banner"
  | "footer" => some "contentinfo"
  | "aside" => some "complementary"
  | "section" => some "region"
  | "article" => some "article"
  | "form" => some "form"
  | "table" => some "table"
  | "ul" => some "list"
  | "ol" => some "list"
  | "li" => some "listitem"
  | "dialog" => some "dialog"
  | "td" => some "cell"
  | "th" => some "columnheader"
  | _ => none

/-- Function `getAriaRole` of `aria-snapshot.ts`: a truthy explicit `role`
attribute is resolved to `explicitRole.split(/\s+/)[0]`; otherwise the
implicit role table applies. -/
def getAriaRole (e : Elem) : Option String :=
  match truthyString (e.getAttribute "role") with
  | some r => some (splitFirstWS r)
  | none => implicitAriaRole e

end AriaSnapshot

/-! ## Selector resolution and actions (`extension/lib/interactions.ts`) -/

namespace Interactions

/-- Function `getInputRole` of `interactions.ts` (a smaller table than the
snapshot one): `typeRoles[type] || "textbox"`. -/
def getInputRole (t : String) : String :=
  match t with
  | "button" => "button"
  | "checkbox" => "checkbox"
  | "radio" => "radio"
  | "search" => "searchbox"
  | _ => "textbox"

/-- Function `getElementRole` of `interactions.ts`.  A truthy explicit `role`
attribute is returned verbatim — unlike the snapshot-side `getAriaRole`, it
is not split at whitespace.  The implicit table is also smaller: `a` is
`link` unconditionally and `select` is always `combobox`. -/
def getElementRole (e : Elem) : Option String :=
  match truthyString (e.getAttribute "role") with
  | some r => some r
  | none =>
    match e.tagName with
    | "button" => some "button"
    | "a" => some "link"
    | "input" => some (getInputRole e.inputType)
    | "textarea" => some "textbox"
    | "select" => some "combobox"
    | "h1" => some "heading"
    | "h2" => some "heading"
    | "h3" => some "heading"
    | "h4" => some "heading"
    | "h5" => some "heading"
    | "h6" => some "heading"
    | _ => none

/-- Function `getAccessibleName` of `interactions.ts`: truthy `aria-label`
(trimmed); else, for `input`/`textarea`, the first associated label's text or
a truthy `placeholder`; else the element's own `textContent`, trimmed. -/
def getAccessibleName (e : Elem) : String :=
  match truthyString (e.getAttribute "aria-label") with
  | some l => jsTrimStr l
  | none =>
    if e.tagName = "input" ∨ e.tagName = "textarea" then
      match e.labelsText with
      | some t => jsTrimStr t
      | none =>
        match truthyString (e.getAttribute "placeholder") with
        | some p => jsTrimStr p
        | none => jsTrimStr e.textContent
    else jsTrimStr e.textContent

end Interactions

/-- The live page as the interaction layer sees it.  `elems` is the
`TreeWalker` traversal order from `document.body` (body first); `refTable`
is the current contents of `elementRefMap`; `cssIndex` abstracts
`document.querySelectorAll` (assumed to succeed); `activeEid` is
`document.activeElement` and `bodyEid` the identity of `document.body`. -/
structure Document where
  elems : List Elem
  refTable : List (Elem × String)
  cssIndex : String → List Elem
  activeEid : Option Nat
  bodyEid : Nat

namespace Interactions

/-- Function `findByRole` of `interactions.ts`: walk every element of the
document, keep those whose computed role equals `role` and (when a name
filter is given) whose accessible name equals it exactly. -/
def findByRole (doc : Document) (role : String) (name : Option String) : List Elem :=
  doc.elems.filter (fun e =>
    getElementRole e == some role &&
    (match name with
     | none => true
     | some nm => getAccessibleName e == nm))

/-- Rendering `JSON.stringify(selector)` for the error messages of
`findElement` (selector fields are assumed to need no JSON escaping). -/
def selectorJson : ElementSelector → String
  | .byRef ref => "\x7b\"ref\":\"" ++ ref ++ "\"\x7d"
  | .byCss css => "\x7b\"css\":\"" ++ css ++ "\"\x7d"
  | .byRole role none => "\x7b\"role\":\"" ++ role ++ "\"\x7d"
  | .byRole role (some nm) =>
    "\x7b\"role\":\"" ++ role ++ "\",\"name\":\"" ++ nm ++ "\"\x7d"

/-- The candidate list built by the strategy dispatch at the top of
`findElement` (`"ref" in selector` / `"css" in selector` / `"role" in
selector`).  The `byRef` branch calls `findElementByRef`, whose `TypeError`
propagates. -/
def findCandidates (doc : Document) : ElementSelector → Except JsError (List Elem)
  | .byRef ref =>
    match AriaSnapshot.findElementByRef doc.refTable ref with
    | .error err => .error err
    | .ok (some el) => .ok [el]
    | .ok none => .ok []
  | .byCss css => .ok (doc.cssIndex css)
  | .byRole role name => .ok (findByRole doc role name)

/-- Function `findElement`: build the candidate list, then throw the typed
`ELEMENT_NOT_FOUND` on zero candidates, the typed `ELEMENT_AMBIGUOUS` on
more than one, and return the single candidate otherwise. -/
def findElement (doc : Document) (sel : ElementSelector) : Except JsError Elem :=
  match findCandidates doc sel with
  | .error err => .error err
  | .ok [] =>
    .error (.coded .ELEMENT_NOT_FOUND
      ("No element found matching selector: " ++ selectorJson sel))
  | .ok [el] => .ok el
  | .ok els =>
    .error (.coded .ELEMENT_AMBIGUOUS
      ("Multiple elements (" ++ Nat.repr els.length ++ ") found matching selector: " ++
        selectorJson sel))

end Interactions

/-- Observable DOM side effects of the interaction executors, in program
order.  An error path produces no effects. -/
inductive Effect
  | scrolledIntoView (eid : Nat)
  | dispatched (eid : Nat) (event : String)
  | nativeClick (eid : Nat)
  | focused (eid : Nat)
  | valueSet (eid : Nat) (v : String)
  | textContentSet (eid : Nat) (v : String)
  | settled
deriving DecidableEq, Repr

namespace Interactions

/-- Function `click`: resolve, scroll into view, dispatch
mousedown/mouseup/click, call the native `element.click()`, settle. -/
def click (doc : Document) (sel : ElementSelector) : Except JsError (List Effect) :=
  match findElement doc sel with
  | .error err => .error err
  | .ok el =>
    .ok [.scrolledIntoView el.eid, .dispatched el.eid "mousedown",
         .dispatched el.eid "mouseup", .dispatched el.eid "click",
         .nativeClick el.eid, .settled]

/-- Function `type` (imported by the content script as `typeText`): resolve,
scroll, focus; for `input`/`textarea` set `value` and fire input/change; for
contenteditable elements set `textContent`; settle. -/
def typeText (doc : Document) (sel : ElementSelector) (text : String) :
    Except JsError (List Effect) :=
  match findElement doc sel with
  | .error err => .error err
  | .ok el =>
    .ok ([.scrolledIntoView el.eid, .focused el.eid] ++
      (if el.tagName = "input" ∨ el.tagName = "textarea" then
        [.valueSet el.eid text, .dispatched el.eid "input", .dispatched el.eid "change"]
      else if el.isContentEditable then [.textContentSet el.eid text]
      else []) ++ [.settled])

/-- Function `hover`: resolve, scroll, dispatch mouseover/mouseenter/
mousemove, settle. -/
def hover (doc : Document) (sel : ElementSelector) : Except JsError (List Effect) :=
  match findElement doc sel with
  | .error err => .error err
  | .ok el =>
    .ok [.scrolledIntoView el.eid, .dispatched el.eid "mouseover",
         .dispatched el.eid "mouseenter", .dispatched el.eid "mousemove", .settled]

/-- Function `select`: resolve; if the element is not an
`HTMLSelectElement` (i.e. not a `<select>`), throw the typed
`INVALID_REQUEST` before any DOM mutation; otherwise scroll, set the value,
fire `change`, settle. -/
def select (doc : Document) (sel : ElementSelector) (v : String) :
    Except JsError (List Effect) :=
  match findElement doc sel with
  | .error err => .error err
  | .ok el =>
    if el.tagName ≠ "select" then
      .error (.coded .INVALID_REQUEST "Select action requires a <select> element")
    else
      .ok [.scrolledIntoView el.eid, .valueSet el.eid v,
           .dispatched el.eid "change", .settled]

/-- Function `press`: dispatch keydown/keypress/keyup against
`document.activeElement || document.body`, settle. -/
def press (doc : Document) (key : String) : Except JsError (List Effect) :=
  let target := doc.activeEid.getD doc.bodyEid
  .ok [.dispatched target ("keydown:" ++ key), .dispatched target ("keypress:" ++ key),
       .dispatched target ("keyup:" ++ key), .settled]

end Interactions

/-! ## The content script's `interact` dispatcher -/

/-- The `interact` request parameters as the content script receives them.
Absent optional fields are `none`; the string guards in `handleInteract` use
JavaScript truthiness, so `some ""` behaves like `none` there. -/
structure InteractParams where
  action : String
  element : Option ElementSelector
  text : Option String
  key : Option String
  value : Option String
  snapshot : Option Bool
deriving Repr

/-- JavaScript falsiness of an optional string parameter (`!text`):
absent or empty. -/
def strFalsy : Option String → Bool
  | none => true
  | some s => s == ""

/-- The `switch (action)` dispatch of `handleInteract` in the content script
(required-parameter guards and the call into `interactions.ts`; the
post-action response assembly is outside this model).  Missing required
parameters throw plain `Error`s, surfaced by the content script's catch as
`INTERNAL_ERROR`. -/
def handleInteract (doc : Document) (p : InteractParams) : Except JsError (List Effect) :=
  match p.action with
  | "click" =>
    match p.element with
    | none => .error (.plain "Element selector required for click action")
    | some sel => Interactions.click doc sel
  | "type" =>
    match p.element, p.text with
    | some sel, some t =>
      if t = "" then .error (.plain "Element selector and text required for type action")
      else Interactions.typeText doc sel t
    | _, _ => .error (.plain "Element selector and text required for type action")
  | "hover" =>
    match p.element with
    | none => .error (.plain "Element selector required for hover action")
    | some sel => Interactions.hover doc sel
  | "select" =>
    match p.element, p.value with
    | some sel, some v =>
      if v = "" then .error (.plain "Element selector and value required for select action")
      else Interactions.select doc sel v
    | _, _ => .error (.plain "Element selector and value required for select action")
  | "press" =>
    match p.key with
    | some k =>
      if k = "" then .error (.plain "Key required for press action")
      else Interactions.press doc k
    | none => .error (.plain "Key required for press action")
  | a => .error (.plain ("Unknown action: " ++ a))

/-! ## The RPC session (`mcp/src/context.ts` and `mcp/src/index.ts`) -/

namespace Rpc

/-- Settlement of a caller-visible promise: resolution with the carried
result, rejection with a typed error code, or rejection with a plain
`Error` message. -/
inductive Settlement
  | resolved (id : String)
  | rejectedCode (id : String) (code : ErrorCode) (msg : String)
  | rejectedPlain (id : String) (msg : String)
deriving DecidableEq, Repr

/-- The `Context` class: the current WebSocket (identified by a connection
id) and the pending-request table; each pending entry keeps the duration of
its deadline timer. -/
structure RpcContext where
  ws : Option Nat
  pending : List (String × Nat)
deriving Repr

/-- The connection-failure message thrown by the `ws` getter. -/
def noConnectionMessage : String :=
  "No connection to browser extension. In order to proceed, you must first connect a tab by clicking the Browser MCP extension icon in the browser toolbar and clicking the \x27Connect\x27 button."

/-- The default `timeoutMs` of `sendRpcRequest`. -/
def defaultTimeoutMs : Nat := 30000

/-- An inbound JSON-RPC response: correlation id plus optional typed error
(the result payload is irrelevant to the session logic). -/
structure JsonRpcResponse where
  id : String
  error : Option (ErrorCode × String)
deriving DecidableEq, Repr

/-- Method `sendRpcRequest` for a freshly minted correlation id `id`: start
the deadline timer, register the pending request, send.  When no socket is
set, the `ws` getter throws; the catch clears the timer, removes the entry
and rejects the caller (with the no-connection message, which reaches the
caller either way since it does not contain the substring checked by the
handler). -/
def sendRpcRequest (ctx : RpcContext) (id : String) (timeoutMs : Nat) :
    RpcContext × List Settlement :=
  match ctx.ws with
  | some _ => ({ ctx with pending := ctx.pending ++ [(id, timeoutMs)] }, [])
  | none => (ctx, [.rejectedPlain id noConnectionMessage])

/-- The deadline-timer callback of `sendRpcRequest` for request `id` with
duration `t`: delete the pending entry and reject with `TIMEOUT`. -/
def timerFires (ctx : RpcContext) (id : String) (t : Nat) :
    RpcContext × List Settlement :=
  ({ ctx with pending := eraseKey ctx.pending id },
   [.rejectedCode id .TIMEOUT ("Request timed out after " ++ Nat.repr t ++ "ms")])

/-- Method `handleResponse`: look up the pending request by id; if absent,
log and ignore; if found, cancel its timer, remove it and settle with the
carried result or typed error. -/
def handleResponse (ctx : RpcContext) (resp : JsonRpcResponse) :
    RpcContext × List Settlement :=
  match lookupKey ctx.pending resp.id with
  | none => (ctx, [])
  | some _ =>
    ({ ctx with pending := eraseKey ctx.pending resp.id },
     match resp.error with
     | some (c, m) => [.rejectedCode resp.id c m]
     | none => [.resolved resp.id])

/-- Method `close` of `Context`: when a socket is set, reject every pending
request with "Connection closed", clear the table and close the socket
(`_ws` itself stays assigned). -/
def closeContext (ctx : RpcContext) : RpcContext × List Settlement :=
  match ctx.ws with
  | none => (ctx, [])
  | some _ =>
    ({ ctx with pending := [] },
     ctx.pending.map (fun p => .rejectedPlain p.1 "Connection closed"))

/-- The `wss.on("connection")` handler of `main` in `mcp/src/index.ts`: when
a connection is already current, close the old socket (`context.ws.close()`
— the `WebSocket`'s own close, not `Context.close`), then install the new
one.  Returns the new state, the list of sockets closed, and the promise
settlements performed (none: pending requests are untouched). -/
def onConnection (ctx : RpcContext) (newWs : Nat) :
    RpcContext × List Nat × List Settlement :=
  match ctx.ws with
  | some old => ({ ctx with ws := some newWs }, [old], [])
  | none => ({ ctx with ws := some newWs }, [], [])

end Rpc

/-! ## Proof-side invariant of the reference table -/

namespace AriaSnapshot

/-- Invariant of the reference table along the first snapshot of a session:
the cached elements are pairwise distinct and the cached tokens are exactly
`e1 … e(counter)` in mint order. -/
def TableInv (s : RefState) : Prop :=
  (s.table.map Prod.fst).Nodup ∧
  s.table.map Prod.snd = (List.range s.counter).map (fun i => refString (i + 1))

end AriaSnapshot

/-! ## Concrete instances used in counterexamples and witnesses -/

/-- A visible `<button>OK</button>`. -/
def elemA : Elem :=
  { eid := 0, tagName := "button", attrs := [], inputType := "", labelsText := none,
    textContent := "OK", value := "", isContentEditable := false }

/-- A distinct `<button>Cancel</button>`. -/
def elemB : Elem :=
  { elemA with eid := 1, textContent := "Cancel" }

/-- A `<div role="button link">`: a multi-token explicit role attribute. -/
def roleMultiElem : Elem :=
  { elemA with eid := 2, tagName := "div", attrs := [("role", "button link")] }

/-- A `<div role="tab">`: a single-token explicit role attribute. -/
def roleSingleElem : Elem :=
  { elemA with eid := 3, tagName := "div", attrs := [("role", "tab")] }

/-- A page on which no reference has ever been minted and no CSS selector
matches. -/
def docEmptyRefs : Document :=
  { elems := [], refTable := [], cssIndex := fun _ => [], activeEid := none, bodyEid := 0 }

/-- A page whose reference table holds exactly one minted token `e1`. -/
def docMinted : Document :=
  { docEmptyRefs with refTable := [(elemA, "e1")] }

/-- A page on which the CSS selector `.b` matches exactly the button. -/
def docCss : Document :=
  { docEmptyRefs with
    elems := [elemA]
    cssIndex := (fun s => if s = ".b" then [elemA] else []) }

/-- An `interact` request `{action:"type", element:{css:".b"}, text:""}`. -/
def pTypeEmpty : InteractParams :=
  { action := "type", element := some (.byCss ".b"), text := some "", key := none,
    value := none, snapshot := none }

/-- An `interact` request `{action:"select", element:{css:".b"}, value:""}`. -/
def pSelectEmpty : InteractParams :=
  { action := "select", element := some (.byCss ".b"), text := none, key := none,
    value := some "", snapshot := none }

/-- A session with a live connection and one pending request `r1`. -/
def ctxLive : Rpc.RpcContext :=
  { ws := some 0, pending := [("r1", 30000)] }

/-- A session with a live connection and no pending request. -/
def ctxIdle : Rpc.RpcContext :=
  { ws := some 0, pending := [] }

/-! # Theorems -/

/-! ## Association-list lemmas -/

theorem lookupKey_append {α β : Type} [DecidableEq α] (t : List (α × β)) (k : α)
    (v : β) (a : α) :
    lookupKey (t ++ [(k, v)]) a =
      match lookupKey t a with
      | some r => some r
      | none => if k = a then some v else none := by
  induction t with
  | nil => simp [lookupKey]
  | cons p rest ih =>
    obtain ⟨k', v'⟩ := p
    by_cases h : k' = a <;> simp [lookupKey, h, ih]

theorem lookupKey_mem {α β : Type} [DecidableEq α] {t : List (α × β)} {a : α} {b : β}
    (h : lookupKey t a = some b) : (a, b) ∈ t := by
  induction t with
  | nil => simp [lookupKey] at h
  | cons p rest ih =>
    obtain ⟨k', v'⟩ := p
    by_cases hk : k' = a
    · subst hk
      simp [lookupKey] at h
      simp [h]
    · simp [lookupKey, hk] at h
      exact List.mem_cons_of_mem _ (ih h)

theorem lookupKey_none_not_mem_keys {α β : Type} [DecidableEq α] {t : List (α × β)}
    {a : α} (h : lookupKey t a = none) : a ∉ t.map Prod.fst := by
  induction t with
  | nil => simp
  | cons p rest ih =>
    obtain ⟨k', v'⟩ := p
    by_cases hk : k' = a
    · simp [lookupKey, hk] at h
    · simp only [lookupKey, if_neg hk] at h
      simp only [List.map_cons, List.mem_cons]
      intro hor
      rcases hor with h1 | h2
      · exact hk h1.symm
      · exact (ih h) h2

theorem eraseKey_append_fresh {α β : Type} [DecidableEq α] {t : List (α × β)} {a : α}
    (v : β) (h : lookupKey t a = none) : eraseKey (t ++ [(a, v)]) a = t := by
  induction t with
  | nil => simp [eraseKey]
  | cons p rest ih =>
    obtain ⟨k', v'⟩ := p
    by_cases hk : k' = a
    · simp [lookupKey, hk] at h
    · simp [lookupKey, hk] at h
      simp [eraseKey, hk, ih h]

/-! ## Injectivity of the decimal token rendering -/

theorem toDigitsCore_succ (fuel n : Nat) (ds : List Char) :
    Nat.toDigitsCore 10 (fuel + 1) n ds =
      if n / 10 = 0 then Nat.digitChar (n % 10) :: ds
      else Nat.toDigitsCore 10 fuel (n / 10) (Nat.digitChar (n % 10) :: ds) := by
  simp [Nat.toDigitsCore]

theorem toDigitsCore_acc (fuel : Nat) : ∀ (n : Nat) (acc : List Char),
    Nat.toDigitsCore 10 fuel n acc = Nat.toDigitsCore 10 fuel n [] ++ acc := by
  induction fuel with
  | zero => intro n acc; simp [Nat.toDigitsCore]
  | succ fuel ih =>
    intro n acc
    rw [toDigitsCore_succ, toDigitsCore_succ]
    by_cases h : n / 10 = 0
    · simp [h]
    · simp only [h, if_false]
      rw [ih (n / 10) (Nat.digitChar (n % 10) :: acc), ih (n / 10) [Nat.digitChar (n % 10)]]
      simp

theorem toDigitsCore_fuel (n : Nat) : ∀ (fuel₁ fuel₂ : Nat), n < fuel₁ → n < fuel₂ →
    Nat.toDigitsCore 10 fuel₁ n [] = Nat.toDigitsCore 10 fuel₂ n [] := by
  induction n using Nat.strong_induction_on with
  | _ n ih =>
    intro fuel₁ fuel₂ h₁ h₂
    obtain ⟨f₁, rfl⟩ : ∃ f, fuel₁ = f + 1 := ⟨fuel₁ - 1, by omega⟩
    obtain ⟨f₂, rfl⟩ : ∃ f, fuel₂ = f + 1 := ⟨fuel₂ - 1, by omega⟩
    by_cases h : n / 10 = 0
    · simp [Nat.toDigitsCore, h]
    · have hdiv : n / 10 < n := Nat.div_lt_self (by omega) (by omega)
      simp only [Nat.toDigitsCore, h, if_false]
      rw [toDigitsCore_acc, toDigitsCore_acc f₂,
        ih (n / 10) hdiv f₁ f₂ (by omega) (by omega)]

theorem toDigits_unfold (n : Nat) :
    Nat.toDigits 10 n =
      if n < 10 then [Nat.digitChar n]
      else Nat.toDigits 10 (n / 10) ++ [Nat.digitChar (n % 10)] := by
  simp only [Nat.toDigits]
  rw [toDigitsCore_succ]
  by_cases h : n < 10
  · have hdiv : n / 10 = 0 := Nat.div_eq_of_lt h
    rw [if_pos hdiv, if_pos h, Nat.mod_eq_of_lt h]
  · have hdiv : n / 10 ≠ 0 := by
      intro h0
      have := Nat.div_add_mod n 10
      have := Nat.mod_lt n (show 0 < 10 by omega)
      omega
    have hlt : n / 10 < n := Nat.div_lt_self (by omega) (by omega)
    rw [if_neg hdiv, if_neg h, toDigitsCore_acc,
      toDigitsCore_fuel (n / 10) n (n / 10 + 1) (by omega) (by omega)]

theorem decDigitVal_digitChar (d : Nat) (h : d < 10) :
    decDigitVal (Nat.digitChar d) = d := by
  interval_cases d <;> rfl

theorem foldl_decValue_toDigits (n : Nat) : ∀ (a : Nat),
    (Nat.toDigits 10 n).foldl (fun a c => 10 * a + decDigitVal c) a =
      a * 10 ^ (Nat.toDigits 10 n).length + n := by
  induction n using Nat.strong_induction_on with
  | _ n ih =>
    intro a
    by_cases h : n < 10
    · rw [toDigits_unfold, if_pos h]
      simp [decDigitVal_digitChar n h]
      omega
    · have hlt : n / 10 < n := Nat.div_lt_self (by omega) (by omega)
      rw [toDigits_unfold, if_neg h, List.foldl_append, ih (n / 10) hlt a]
      have hmod : n % 10 < 10 := Nat.mod_lt n (by omega)
      simp only [List.foldl_cons, List.foldl_nil, List.length_append,
        List.length_cons, List.length_nil, decDigitVal_digitChar _ hmod]
      have hdm := Nat.div_add_mod n 10
      set k := 10 ^ (Nat.toDigits 10 (n / 10)).length with hk
      have : 10 ^ ((Nat.toDigits 10 (n / 10)).length + (0 + 1)) = k * 10 := by
        rw [hk, pow_succ]
      rw [this]
      ring_nf
      omega

theorem decValue_toDigits (n : Nat) : decValue (Nat.toDigits 10 n) = n := by
  have := foldl_decValue_toDigits n 0
  simpa [decValue] using this

theorem natRepr_inj : Function.Injective Nat.repr := by
  intro m n h
  have hdata : Nat.toDigits 10 m = Nat.toDigits 10 n := by
    have := congrArg String.data h
    simpa [Nat.repr, List.asString] using this
  have := decValue_toDigits m
  rw [hdata, decValue_toDigits n] at this
  exact this.symm

theorem refString_inj : Function.Injective refString := by
  intro m n h
  apply natRepr_inj
  have := congrArg String.data h
  simp only [refString, String.data_append] at this
  exact String.ext (List.append_cancel_left this)

/-! ## Whitespace normalization -/

theorem collapseWSAux_spaces (l : List Char) : ∀ (b : Bool), SpacesSingle (collapseWSAux b l) := by
  induction l with
  | nil => intro b c hc; simp [collapseWSAux] at hc
  | cons d cs ih =>
    intro b c hc hsp
    by_cases hd : jsIsSpace d
    · cases b with
      | true =>
        simp only [collapseWSAux, hd, if_pos, if_true] at hc
        exact ih true c hc hsp
      | false =>
        simp only [collapseWSAux, hd, if_pos, if_false] at hc
        rcases List.mem_cons.mp hc with h1 | h2
        · exact h1
        · exact ih true c h2 hsp
    · simp only [collapseWSAux, hd, if_neg, Bool.false_eq_true, if_false] at hc
      rcases List.mem_cons.mp hc with h1 | h2
      · subst h1; simp [hd] at hsp
      · exact ih false c h2 hsp

theorem collapseWSAux_true_head (l : List Char) :
    ∀ y ∈ (collapseWSAux true l).head?, jsIsSpace y = false := by
  induction l with
  | nil => intro y hy; simp [collapseWSAux] at hy
  | cons d cs ih =>
    intro y hy
    by_cases hd : jsIsSpace d
    · simp only [collapseWSAux, hd, if_true] at hy
      exact ih y hy
    · simp only [collapseWSAux, hd, Bool.false_eq_true, if_false, List.head?_cons,
        Option.mem_def, Option.some.injEq] at hy
      subst hy
      simpa using hd

theorem collapseWSAux_chain (l : List Char) : ∀ (b : Bool), NoAdjSpaces (collapseWSAux b l) := by
  induction l with
  | nil => intro b; simp [collapseWSAux, NoAdjSpaces]
  | cons d cs ih =>
    intro b
    by_cases hd : jsIsSpace d
    · cases b with
      | true => simpa [collapseWSAux, hd] using ih true
      | false =>
        simp only [collapseWSAux, hd, if_true, if_false]
        refine List.chain'_cons'.mpr ⟨?_, ih true⟩
        intro y hy
        have := collapseWSAux_true_head cs y hy
        simp [this]
    · simp only [collapseWSAux, hd, Bool.false_eq_true, if_false]
      refine List.chain'_cons'.mpr ⟨?_, ih false⟩
      intro y hy
      simp [hd]

theorem collapseWS_collapsed (l : List Char) : WSCollapsed (collapseWS l) :=
  ⟨collapseWSAux_spaces l false, collapseWSAux_chain l false⟩

theorem collapseWSAux_true_of_head (l : List Char)
    (h : ∀ y ∈ l.head?, jsIsSpace y = false) :
    collapseWSAux true l = collapseWSAux false l := by
  cases l with
  | nil => rfl
  | cons d cs =>
    have hd : jsIsSpace d = false := h d (by simp)
    simp [collapseWSAux, hd]

theorem collapseWS_fix (l : List Char) (h : WSCollapsed l) : collapseWS l = l := by
  induction l with
  | nil => rfl
  | cons d cs ih =>
    obtain ⟨hs, hch⟩ := h
    have htail : WSCollapsed cs :=
      ⟨fun c hc hsp => hs c (List.mem_cons_of_mem _ hc) hsp, (List.chain'_cons'.mp hch).2⟩
    by_cases hd : jsIsSpace d
    · have hd' : d = ' ' := hs d (by simp) hd
      have hhead : ∀ y ∈ cs.head?, jsIsSpace y = false := by
        intro y hy
        have := (List.chain'_cons'.mp hch).1 y hy
        by_contra hy'
        exact this ⟨hd, by simpa using hy'⟩
      have hcs : collapseWSAux true cs = cs := by
        rw [collapseWSAux_true_of_head cs hhead]
        exact ih htail
      show collapseWSAux false (d :: cs) = d :: cs
      simp only [collapseWSAux]
      rw [if_pos hd, if_neg (by simp), hcs, hd']
    · show collapseWSAux false (d :: cs) = d :: cs
      simp only [collapseWSAux]
      rw [if_neg hd, show collapseWSAux false cs = cs from ih htail]

theorem jsTrim_subset (l : List Char) : ∀ c ∈ jsTrim l, c ∈ l := by
  intro c hc
  simp only [jsTrim, List.mem_reverse] at hc
  have h1 := (List.dropWhile_suffix jsIsSpace).sublist.subset hc
  rw [List.mem_reverse] at h1
  exact (List.dropWhile_suffix jsIsSpace).sublist.subset h1

theorem jsTrim_collapsed (l : List Char) (h : WSCollapsed l) : WSCollapsed (jsTrim l) := by
  obtain ⟨hs, hch⟩ := h
  refine ⟨fun c hc hsp => hs c (jsTrim_subset l c hc) hsp, ?_⟩
  have hsymm : ∀ (a b : Char), ¬(jsIsSpace a = true ∧ jsIsSpace b = true) →
      ¬(jsIsSpace b = true ∧ jsIsSpace a = true) := by
    intro a b hab ⟨h1, h2⟩
    exact hab ⟨h2, h1⟩
  have s1 : NoAdjSpaces (l.dropWhile jsIsSpace) :=
    hch.suffix (List.dropWhile_suffix _)
  have s2 : NoAdjSpaces ((l.dropWhile jsIsSpace).reverse) :=
    List.chain'_reverse.mpr (s1.imp hsymm)
  have s3 : NoAdjSpaces (((l.dropWhile jsIsSpace).reverse).dropWhile jsIsSpace) :=
    s2.suffix (List.dropWhile_suffix _)
  exact List.chain'_reverse.mpr (s3.imp hsymm)

theorem head?_dropWhile_not (l : List Char) :
    ∀ y ∈ (l.dropWhile jsIsSpace).head?, jsIsSpace y = false := by
  induction l with
  | nil => intro y hy; simp at hy
  | cons d cs ih =>
    intro y hy
    by_cases hd : jsIsSpace d
    · rw [List.dropWhile_cons_of_pos hd] at hy
      exact ih y hy
    · rw [List.dropWhile_cons_of_neg (by simpa using hd)] at hy
      simp only [List.head?_cons, Option.mem_def, Option.some.injEq] at hy
      subst hy
      simpa using hd

theorem jsTrim_noEdge (l : List Char) : NoEdgeSpace (jsTrim l) := by
  constructor
  · intro c hc
    simp only [jsTrim, List.head?_reverse, Option.mem_def] at hc
    obtain ⟨t, ht⟩ := List.dropWhile_suffix (l := (l.dropWhile jsIsSpace).reverse) jsIsSpace
    have hrev : ((l.dropWhile jsIsSpace).reverse).getLast? = some c := by
      rw [← ht, List.getLast?_append, hc]
      rfl
    rw [List.getLast?_reverse] at hrev
    exact head?_dropWhile_not l c hrev
  · intro c hc
    simp only [jsTrim, List.getLast?_reverse] at hc
    exact head?_dropWhile_not _ c hc

theorem jsTrim_fix (l : List Char) (h : NoEdgeSpace l) : jsTrim l = l := by
  obtain ⟨h1, h2⟩ := h
  have e1 : l.dropWhile jsIsSpace = l := by
    cases l with
    | nil => rfl
    | cons d cs =>
      have := h1 d (by simp)
      rw [List.dropWhile_cons_of_neg (by simp [this])]
  unfold jsTrim
  rw [e1]
  have e2 : l.reverse.dropWhile jsIsSpace = l.reverse := by
    cases hr : l.reverse with
    | nil => rfl
    | cons d cs =>
      have hd : l.reverse.head? = some d := by rw [hr]; rfl
      rw [List.head?_reverse] at hd
      have := h2 d hd
      rw [List.dropWhile_cons_of_neg (by simp [this])]
  rw [e2, List.reverse_reverse]

/-- C9: whitespace normalization is idempotent: for every string `s`,
`normalizeWhitespace (normalizeWhitespace s) = normalizeWhitespace s`, where
`normalizeWhitespace` collapses every run of whitespace to a single space and
trims both ends. -/
theorem normalizeWhitespace_idempotent (s : String) :
    normalizeWhitespace (normalizeWhitespace s) = normalizeWhitespace s := by
  unfold normalizeWhitespace
  have hdata : (String.mk (jsTrim (collapseWS s.data))).data = jsTrim (collapseWS s.data) := rfl
  rw [hdata]
  have h1 : WSCollapsed (collapseWS s.data) := collapseWS_collapsed s.data
  have h2 : WSCollapsed (jsTrim (collapseWS s.data)) := jsTrim_collapsed _ h1
  rw [collapseWS_fix _ h2, jsTrim_fix _ (jsTrim_noEdge (collapseWS s.data))]

/-! ## Reference table: stability and the counter-reset collision -/

namespace AriaSnapshot

theorem getOrCreateRef_preserves (s : RefState) (el x : Elem) (r : String)
    (h : lookupKey s.table x = some r) :
    lookupKey (getOrCreateRef s el).2.table x = some r := by
  cases hl : lookupKey s.table el with
  | some r' => simpa [getOrCreateRef, hl] using h
  | none =>
    simp only [getOrCreateRef, hl]
    rw [lookupKey_append]
    simp [h]

theorem getOrCreateRef_self (s : RefState) (el : Elem) :
    lookupKey (getOrCreateRef s el).2.table el = some (getOrCreateRef s el).1 := by
  cases hl : lookupKey s.table el with
  | some r => simp [getOrCreateRef, hl]
  | none =>
    simp only [getOrCreateRef, hl]
    rw [lookupKey_append]
    simp [hl]

theorem snapshotWalk_preserves (ex : List Elem) : ∀ (s : RefState) (x : Elem) (r : String),
    lookupKey s.table x = some r →
    lookupKey (snapshotWalk s ex).2.table x = some r := by
  induction ex with
  | nil => intro s x r h; simpa [snapshotWalk] using h
  | cons el rest ih =>
    intro s x r h
    simp only [snapshotWalk]
    exact ih _ x r (getOrCreateRef_preserves s el x r h)

theorem snapshotWalk_reported (ex : List Elem) : ∀ (s : RefState) (x : Elem) (r : String),
    (x, r) ∈ (snapshotWalk s ex).1 →
    lookupKey (snapshotWalk s ex).2.table x = some r := by
  induction ex with
  | nil => intro s x r h; simp [snapshotWalk] at h
  | cons el rest ih =>
    intro s x r hmem
    simp only [snapshotWalk] at hmem ⊢
    rcases List.mem_cons.mp hmem with h1 | h2
    · have hx : x = el := congrArg Prod.fst h1
      have hr : r = (getOrCreateRef s el).1 := congrArg Prod.snd h1
      subst hx
      subst hr
      exact snapshotWalk_preserves rest _ x _ (getOrCreateRef_self s x)
    · exact ih _ x r h2

theorem snapshotWalk_exposed (ex : List Elem) : ∀ (s : RefState) (x : Elem),
    x ∈ ex → ∃ r, (x, r) ∈ (snapshotWalk s ex).1 := by
  induction ex with
  | nil => intro s x h; simp at h
  | cons el rest ih =>
    intro s x hmem
    simp only [snapshotWalk]
    rcases List.mem_cons.mp hmem with h1 | h2
    · subst h1
      exact ⟨(getOrCreateRef s x).1, List.mem_cons_self _ _⟩
    · obtain ⟨r, hr⟩ := ih (getOrCreateRef s el).2 x h2
      exact ⟨r, List.mem_cons_of_mem _ hr⟩

theorem getOrCreateRef_inv (s : RefState) (el : Elem) (h : TableInv s) :
    TableInv (getOrCreateRef s el).2 := by
  cases hl : lookupKey s.table el with
  | some r => simpa [getOrCreateRef, hl] using h
  | none =>
    obtain ⟨hk, ht⟩ := h
    constructor
    · simp only [getOrCreateRef, hl, List.map_append, List.map_cons, List.map_nil]
      rw [List.nodup_append]
      refine ⟨hk, List.nodup_singleton _, ?_⟩
      intro a ha hb
      simp only [List.mem_singleton] at hb
      subst hb
      exact lookupKey_none_not_mem_keys hl ha
    · simp only [getOrCreateRef, hl, List.map_append, List.map_cons, List.map_nil,
        List.range_succ, ht]

theorem snapshotWalk_inv (ex : List Elem) : ∀ (s : RefState), TableInv s →
    TableInv (snapshotWalk s ex).2 := by
  induction ex with
  | nil => intro s h; simpa [snapshotWalk] using h
  | cons el rest ih =>
    intro s h
    simp only [snapshotWalk]
    exact ih _ (getOrCreateRef_inv s el h)

theorem tokens_nodup_of_inv (s : RefState) (h : TableInv s) :
    (s.table.map Prod.snd).Nodup := by
  rw [h.2]
  refine List.Nodup.map ?_ (List.nodup_range _)
  intro a b hab
  have := refString_inj hab
  omega

theorem table_token_unique (s : RefState) (h : TableInv s) {el₁ el₂ : Elem} {r : String}
    (h₁ : lookupKey s.table el₁ = some r) (h₂ : lookupKey s.table el₂ = some r) :
    el₁ = el₂ := by
  have m₁ := lookupKey_mem h₁
  have m₂ := lookupKey_mem h₂
  have hnd := tokens_nodup_of_inv s h
  have heq : ((el₁, r) : Elem × String) = (el₂, r) :=
    List.inj_on_of_nodup_map hnd m₁ m₂ rfl
  exact congrArg Prod.fst heq

end AriaSnapshot

/-- C2 (counterexample): the minting counter is reset at the start of every
snapshot while the token cache persists, so a first snapshot exposing one
button and a second snapshot exposing a different, freshly discovered button
leave two distinct cached elements both holding the token `e1`; the reverse
lookup for `e1` can only ever return the first of them. -/
theorem refTokens_collide_across_snapshots :
    lookupKey (AriaSnapshot.generateAriaSnapshot
        (AriaSnapshot.generateAriaSnapshot AriaSnapshot.initialRefState [elemA]).2
        [elemB]).2.table elemA = some "e1" ∧
    lookupKey (AriaSnapshot.generateAriaSnapshot
        (AriaSnapshot.generateAriaSnapshot AriaSnapshot.initialRefState [elemA]).2
        [elemB]).2.table elemB = some "e1" ∧
    elemA ≠ elemB ∧
    AriaSnapshot.refReverseLookup (AriaSnapshot.generateAriaSnapshot
        (AriaSnapshot.generateAriaSnapshot AriaSnapshot.initialRefState [elemA]).2
        [elemB]).2.table "e1" = some elemA := by
  refine ⟨rfl, rfl, by decide, rfl⟩

/-- C2 (amended): within the first snapshot of a session (a walk starting
from the empty reference table), references are unique — no two distinct
cached elements hold the same token `e<N>`.  The collision of
`refTokens_collide_across_snapshots` only arises once a later snapshot
resets the counter against a persisting cache. -/
theorem refTokens_unique_first_snapshot (exposed : List Elem) (el₁ el₂ : Elem)
    (r : String)
    (h₁ : lookupKey (AriaSnapshot.generateAriaSnapshot
      AriaSnapshot.initialRefState exposed).2.table el₁ = some r)
    (h₂ : lookupKey (AriaSnapshot.generateAriaSnapshot
      AriaSnapshot.initialRefState exposed).2.table el₂ = some r) :
    el₁ = el₂ := by
  have hinv : AriaSnapshot.TableInv
      (AriaSnapshot.generateAriaSnapshot AriaSnapshot.initialRefState exposed).2 := by
    apply AriaSnapshot.snapshotWalk_inv
    constructor <;> simp [AriaSnapshot.initialRefState, AriaSnapshot.TableInv]
  exact AriaSnapshot.table_token_unique _ hinv h₁ h₂

theorem refTokens_unique_first_snapshot_witness : elemA = elemA :=
  refTokens_unique_first_snapshot [elemA, elemB] elemA elemA "e1" (by decide) (by decide)

/-- C7: an element exposed in two successive snapshots keeps its reference:
if the first snapshot reports `(el, r)` and `el` is exposed again by the
second snapshot (over the state left by the first), the second snapshot
reports `(el, r)` as well, and no other token for `el`. -/
theorem reference_stable_across_snapshots (s : AriaSnapshot.RefState)
    (ex₁ ex₂ : List Elem) (el : Elem) (r : String)
    (h1 : (el, r) ∈ (AriaSnapshot.generateAriaSnapshot s ex₁).1)
    (h2 : el ∈ ex₂) :
    (el, r) ∈ (AriaSnapshot.generateAriaSnapshot
      (AriaSnapshot.generateAriaSnapshot s ex₁).2 ex₂).1 ∧
    ∀ r', (el, r') ∈ (AriaSnapshot.generateAriaSnapshot
      (AriaSnapshot.generateAriaSnapshot s ex₁).2 ex₂).1 → r' = r := by
  simp only [AriaSnapshot.generateAriaSnapshot] at h1 ⊢
  have hcached : lookupKey (AriaSnapshot.snapshotWalk { s with counter := 0 } ex₁).2.table
      el = some r := AriaSnapshot.snapshotWalk_reported ex₁ _ el r h1
  have hcached' : lookupKey ({ (AriaSnapshot.snapshotWalk { s with counter := 0 } ex₁).2
      with counter := 0 } : AriaSnapshot.RefState).table el = some r := hcached
  obtain ⟨r₂, hr₂⟩ := AriaSnapshot.snapshotWalk_exposed ex₂
    ({ (AriaSnapshot.snapshotWalk { s with counter := 0 } ex₁).2 with counter := 0 }) el h2
  have hrep := AriaSnapshot.snapshotWalk_reported ex₂ _ el r₂ hr₂
  have hpres := AriaSnapshot.snapshotWalk_preserves ex₂ _ el r hcached'
  have hr₂r : r₂ = r := by
    rw [hrep] at hpres
    exact (Option.some.injEq _ _).mp hpres
  subst hr₂r
  refine ⟨hr₂, ?_⟩
  intro r' hr'
  have := AriaSnapshot.snapshotWalk_reported ex₂ _ el r' hr'
  rw [this] at hpres
  exact (Option.some.injEq _ _).mp hpres

theorem reference_stable_across_snapshots_witness :
    (elemA, "e1") ∈ (AriaSnapshot.generateAriaSnapshot
      (AriaSnapshot.generateAriaSnapshot AriaSnapshot.initialRefState [elemA, elemB]).2
      [elemB, elemA]).1 :=
  (reference_stable_across_snapshots AriaSnapshot.initialRefState [elemA, elemB]
    [elemB, elemA] elemA "e1" (by decide) (by decide)).1

/-! ## Selector resolution -/

/-- C1: for CSS and role selectors, `findElement` is exactly-one-or-fail over
the candidate list (singleton candidate returned, zero candidates is the
typed `ELEMENT_NOT_FOUND`, more than one the typed `ELEMENT_AMBIGUOUS`, and
candidates are always produced); for a `ByRef` selector, however — here with
the token `e1` minted for exactly one element — resolution throws the
untyped `TypeError` of `findElementByRef` instead of returning that element,
because `WeakMap` has no `entries` method. -/
theorem findElement_trichotomy_and_byRef_typeError :
    (∀ (doc : Document) (sel : ElementSelector) (cands : List Elem),
      Interactions.findCandidates doc sel = .ok cands →
      (cands = [] →
        Interactions.findElement doc sel = .error (.coded .ELEMENT_NOT_FOUND
          ("No element found matching selector: " ++ Interactions.selectorJson sel))) ∧
      (∀ el, cands = [el] → Interactions.findElement doc sel = .ok el) ∧
      (1 < cands.length →
        Interactions.findElement doc sel = .error (.coded .ELEMENT_AMBIGUOUS
          ("Multiple elements (" ++ Nat.repr cands.length ++ ") found matching selector: " ++
            Interactions.selectorJson sel)))) ∧
    (∀ (doc : Document) (css : String),
      Interactions.findCandidates doc (.byCss css) = .ok (doc.cssIndex css)) ∧
    (∀ (doc : Document) (role : String) (name : Option String),
      Interactions.findCandidates doc (.byRole role name) =
        .ok (Interactions.findByRole doc role name)) ∧
    Interactions.findElement docMinted (.byRef "e1") =
      .error (.typeError "elementRefMap.entries is not a function") := by
  refine ⟨?_, fun doc css => rfl, fun doc role name => rfl, rfl⟩
  intro doc sel cands hc
  refine ⟨?_, ?_, ?_⟩
  · intro h0
    subst h0
    simp [Interactions.findElement, hc]
  · intro el h1
    subst h1
    simp [Interactions.findElement, hc]
  · intro h2
    match cands, h2 with
    | a :: b :: t, _ =>
      simp [Interactions.findElement, hc]

theorem findElement_trichotomy_witness :
    Interactions.findElement docEmptyRefs (.byCss ".missing") =
      .error (.coded .ELEMENT_NOT_FOUND
        ("No element found matching selector: " ++
          Interactions.selectorJson (.byCss ".missing"))) :=
  (findElement_trichotomy_and_byRef_typeError.1 docEmptyRefs (.byCss ".missing")
    [] rfl).1 rfl

/-- C3: resolving a `ByRef` selector whose token was never minted.  As
written, `findElementByRef` calls `entries()` on the `WeakMap`, so the
lookup throws a `TypeError` (surfaced as `INTERNAL_ERROR` by the content
script's catch) rather than failing with the typed `ELEMENT_NOT_FOUND`; the
reverse lookup its loop describes would indeed have yielded no candidate. -/
theorem byRef_unminted_typeError_not_notFound :
    Interactions.findElement docEmptyRefs (.byRef "e99") =
      .error (.typeError "elementRefMap.entries is not a function") ∧
    (∀ c m, Interactions.findElement docEmptyRefs (.byRef "e99") ≠ .error (.coded c m)) ∧
    AriaSnapshot.refReverseLookup docEmptyRefs.refTable "e99" = none := by
  refine ⟨rfl, ?_, rfl⟩
  intro c m h
  simp [Interactions.findElement, Interactions.findCandidates,
    AriaSnapshot.findElementByRef] at h

/-! ## Role computation: snapshot side vs selector side -/

/-- C5 (counterexample): on an element with the multi-token explicit role
attribute `"button link"`, the snapshot-side `getAriaRole` takes the first
token `"button"`, but the selector-side `getElementRole` returns the whole
attribute value `"button link"` — the two role computations disagree, and
the selector side does not resolve to the first token. -/
theorem role_computations_disagree_multi_token :
    AriaSnapshot.getAriaRole roleMultiElem = some "button" ∧
    Interactions.getElementRole roleMultiElem = some "button link" ∧
    AriaSnapshot.getAriaRole roleMultiElem ≠ Interactions.getElementRole roleMultiElem := by
  refine ⟨by decide, by decide, by decide⟩

/-- C5 (amended): only the snapshot-side `getAriaRole` splits a multi-token
explicit role at whitespace; the selector-side `getElementRole` returns the
attribute verbatim.  The two computations agree on an explicit role
attribute exactly when it is a single whitespace-free nonempty token. -/
theorem role_computations_agree_single_token (e : Elem) (r : String)
    (hattr : e.getAttribute "role" = some r) (hne : r ≠ "")
    (hws : ∀ c ∈ r.data, jsIsSpace c = false) :
    AriaSnapshot.getAriaRole e = some r ∧ Interactions.getElementRole e = some r := by
  have htr : truthyString (e.getAttribute "role") = some r := by
    simp [truthyString, hattr, hne]
  refine ⟨?_, by simp [Interactions.getElementRole, htr]⟩
  simp only [AriaSnapshot.getAriaRole, htr]
  obtain ⟨l⟩ := r
  have hl : l ≠ [] := fun h => hne (by simp [h])
  unfold splitFirstWS
  cases hld : l with
  | nil => exact absurd hld hl
  | cons c cs =>
    have hc : jsIsSpace c = false := hws c (by simp [hld])
    simp only [hld]
    rw [if_neg (by simp [hc])]
    have htw : (c :: cs).takeWhile (fun d => !jsIsSpace d) = c :: cs :=
      List.takeWhile_eq_self_iff.mpr (fun x hx => by
        simp [hws x (by simp [hld, hx])])
    rw [htw]

theorem role_computations_agree_single_token_witness :
    AriaSnapshot.getAriaRole roleSingleElem = some "tab" ∧
    Interactions.getElementRole roleSingleElem = some "tab" :=
  role_computations_agree_single_token roleSingleElem "tab" (by decide) (by decide)
    (by decide)

/-! ## The `select` action -/

/-- C8: a `select` action on a resolved element that is not a `<select>`
fails with the typed `INVALID_REQUEST` before any DOM mutation: the error
path produces no effects (no scroll, no value assignment, no event). -/
theorem select_invalid_request_no_mutation (doc : Document) (sel : ElementSelector)
    (v : String) (el : Elem) (hfind : Interactions.findElement doc sel = .ok el)
    (hnotsel : el.tagName ≠ "select") :
    Interactions.select doc sel v =
      .error (.coded .INVALID_REQUEST "Select action requires a <select> element") := by
  simp [Interactions.select, hfind, hnotsel]

theorem select_invalid_request_no_mutation_witness :
    Interactions.select docCss (.byCss ".b") "x" =
      .error (.coded .INVALID_REQUEST "Select action requires a <select> element") :=
  select_invalid_request_no_mutation docCss (.byCss ".b") "x" elemA rfl (by decide)

/-! ## The `interact` dispatcher: empty-string parameters -/

/-- C10: at the `interact` dispatcher, a required string parameter equal to
`""` behaves exactly like an absent one (JavaScript falsiness of the `!text`
and `!value` guards): a `type` with `text:""` or a `select` with `value:""`
is rejected with the missing-required-parameter error instead of performing
the action, and substituting `""` for an absent parameter never changes the
outcome. -/
theorem handleInteract_empty_string_missing_param (doc : Document) (p : InteractParams) :
    (p.action = "type" → p.text = some "" →
      handleInteract doc p =
        .error (.plain "Element selector and text required for type action")) ∧
    (p.action = "select" → p.value = some "" →
      handleInteract doc p =
        .error (.plain "Element selector and value required for select action")) ∧
    (p.action = "type" →
      handleInteract doc { p with text := some "" } =
        handleInteract doc { p with text := none }) ∧
    (p.action = "select" →
      handleInteract doc { p with value := some "" } =
        handleInteract doc { p with value := none }) := by
  refine ⟨?_, ?_, ?_, ?_⟩
  · intro ha ht
    cases hel : p.element <;> simp [handleInteract, ha, ht, hel]
  · intro ha hv
    cases hel : p.element <;> simp [handleInteract, ha, hv, hel]
  · intro ha
    cases hel : p.element <;> simp [handleInteract, ha, hel]
  · intro ha
    cases hel : p.element <;> simp [handleInteract, ha, hel]

theorem handleInteract_empty_string_missing_param_witness :
    handleInteract docCss pTypeEmpty =
      .error (.plain "Element selector and text required for type action") ∧
    handleInteract docCss pSelectEmpty =
      .error (.plain "Element selector and value required for select action") :=
  ⟨(handleInteract_empty_string_missing_param docCss pTypeEmpty).1 rfl rfl,
   (handleInteract_empty_string_missing_param docCss pSelectEmpty).2.1 rfl rfl⟩

/-! ## RPC session: connection swap, close, timeout -/

/-- C4 (counterexample): accepting a second connection while `r1` is pending
on the live one performs no promise settlement at all — in particular no
connection-closed rejection — and leaves `r1` in the pending table (the
handler calls the socket's own `close()`, not `Context.close`). -/
theorem onConnection_does_not_reject_pending :
    (Rpc.onConnection ctxLive 1).2.2 = [] ∧
    (Rpc.onConnection ctxLive 1).1.pending = [("r1", 30000)] ∧
    ctxLive.pending ≠ [] := by
  refine ⟨rfl, rfl, by decide⟩

/-- C4 (amended): accepting a new connection forcibly closes the previously
live socket and installs the new one — at most one logical connection is
ever live — but the requests pending on the old connection are not rejected
at swap time: they stay in the table (settled later only by a response, their
own timeout, or session shutdown).  Rejection of every pending request with
a connection-closed failure happens in `Context.close`, which the swap
handler does not call. -/
theorem onConnection_swap_and_close_behavior (ctx : Rpc.RpcContext) (newWs : Nat) :
    ((Rpc.onConnection ctx newWs).1.ws = some newWs) ∧
    ((Rpc.onConnection ctx newWs).1.pending = ctx.pending) ∧
    ((Rpc.onConnection ctx newWs).2.2 = []) ∧
    (∀ old, ctx.ws = some old → (Rpc.onConnection ctx newWs).2.1 = [old]) ∧
    (ctx.ws ≠ none →
      (Rpc.closeContext ctx).2 =
        ctx.pending.map (fun p => Rpc.Settlement.rejectedPlain p.1 "Connection closed") ∧
      (Rpc.closeContext ctx).1.pending = []) := by
  obtain ⟨ws, pend⟩ := ctx
  cases ws with
  | none =>
    refine ⟨rfl, rfl, rfl, ?_, ?_⟩
    · intro old h
      exact absurd h (by simp)
    · intro h
      exact absurd rfl h
  | some old' =>
    refine ⟨rfl, rfl, rfl, ?_, fun _ => ⟨rfl, rfl⟩⟩
    intro old h
    have h' : old' = old := by simpa using h
    subst h'
    rfl

theorem onConnection_swap_and_close_behavior_witness :
    (Rpc.closeContext ctxLive).2 =
      ctxLive.pending.map (fun p => Rpc.Settlement.rejectedPlain p.1 "Connection closed") :=
  (((onConnection_swap_and_close_behavior ctxLive 1).2.2.2.2) (by decide)).1

/-- C6: a `sendRpcRequest` with the default 30000 ms timeout registers the
correlation id with a 30000 ms deadline timer and settles nothing; when the
timer fires, the caller is rejected with the typed `TIMEOUT` and the id is
removed from the pending table at that moment; a response carrying that id
arriving afterwards finds no pending entry and is ignored (no settlement, no
state change). -/
theorem sendRpcRequest_timeout_behavior (ctx : Rpc.RpcContext) (id : String)
    (resp : Rpc.JsonRpcResponse) (c₁ c₂ : Rpc.RpcContext)
    (out₁ outT : List Rpc.Settlement)
    (hws : ctx.ws.isSome = true) (hfresh : lookupKey ctx.pending id = none)
    (hid : resp.id = id)
    (hsend : Rpc.sendRpcRequest ctx id Rpc.defaultTimeoutMs = (c₁, out₁))
    (hfire : Rpc.timerFires c₁ id Rpc.defaultTimeoutMs = (c₂, outT)) :
    out₁ = [] ∧
    lookupKey c₁.pending id = some 30000 ∧
    outT = [Rpc.Settlement.rejectedCode id .TIMEOUT "Request timed out after 30000ms"] ∧
    lookupKey c₂.pending id = none ∧
    Rpc.handleResponse c₂ resp = (c₂, []) := by
  obtain ⟨ws, pend⟩ := ctx
  have hfresh' : lookupKey pend id = none := hfresh
  cases ws with
  | none => simp at hws
  | some w =>
    have hc₁ : c₁ = { ws := some w, pending := pend ++ [(id, Rpc.defaultTimeoutMs)] } :=
      (congrArg Prod.fst hsend).symm
    have hout₁ : out₁ = [] := (congrArg Prod.snd hsend).symm
    have hc₂ : c₂ = { c₁ with pending := eraseKey c₁.pending id } :=
      (congrArg Prod.fst hfire).symm
    have houtT : outT = [Rpc.Settlement.rejectedCode id .TIMEOUT
        ("Request timed out after " ++ Nat.repr Rpc.defaultTimeoutMs ++ "ms")] :=
      (congrArg Prod.snd hfire).symm
    have herase : eraseKey c₁.pending id = pend := by
      rw [hc₁]
      exact eraseKey_append_fresh _ hfresh'
    have hlook₂ : lookupKey c₂.pending id = none := by
      rw [hc₂]
      show lookupKey (eraseKey c₁.pending id) id = none
      rw [herase]
      exact hfresh'
    refine ⟨hout₁, ?_, ?_, hlook₂, ?_⟩
    · rw [hc₁]
      show lookupKey (pend ++ [(id, Rpc.defaultTimeoutMs)]) id = some 30000
      rw [lookupKey_append, hfresh']
      simp [Rpc.defaultTimeoutMs]
    · rw [houtT]
      rfl
    · have hlook : lookupKey c₂.pending resp.id = none := by
        rw [hid]
        exact hlook₂
      simp [Rpc.handleResponse, hlook]

theorem sendRpcRequest_timeout_behavior_witness :
    lookupKey (Rpc.sendRpcRequest ctxIdle "req-1" Rpc.defaultTimeoutMs).1.pending
      "req-1" = some 30000 ∧
    (Rpc.timerFires (Rpc.sendRpcRequest ctxIdle "req-1" Rpc.defaultTimeoutMs).1
      "req-1" Rpc.defaultTimeoutMs).2 =
      [Rpc.Settlement.rejectedCode "req-1" .TIMEOUT "Request timed out after 30000ms"] ∧
    Rpc.handleResponse (Rpc.timerFires
      (Rpc.sendRpcRequest ctxIdle "req-1" Rpc.defaultTimeoutMs).1
      "req-1" Rpc.defaultTimeoutMs).1 ⟨"req-1", none⟩ =
      ((Rpc.timerFires (Rpc.sendRpcRequest ctxIdle "req-1" Rpc.defaultTimeoutMs).1
        "req-1" Rpc.defaultTimeoutMs).1, []) := by
  have h := sendRpcRequest_timeout_behavior ctxIdle "req-1" ⟨"req-1", none⟩
    (Rpc.sendRpcRequest ctxIdle "req-1" Rpc.defaultTimeoutMs).1
    (Rpc.timerFires (Rpc.sendRpcRequest ctxIdle "req-1" Rpc.defaultTimeoutMs).1
      "req-1" Rpc.defaultTimeoutMs).1
    (Rpc.sendRpcRequest ctxIdle "req-1" Rpc.defaultTimeoutMs).2
    (Rpc.timerFires (Rpc.sendRpcRequest ctxIdle "req-1" Rpc.defaultTimeoutMs).1
      "req-1" Rpc.defaultTimeoutMs).2
    (by decide) (by decide) rfl rfl rfl
  exact ⟨h.2.1, h.2.2.1, h.2.2.2.2⟩
